import Mathlib

/-!
Verification development for the image-caption-extraction pipeline
(`extractor.py`, `storage.py`, `batch_processor.py`, `help.py`).

The Python code is shallowly embedded as pure Lean functions.  Network
effects (the NCBI BioC fetch, the PMID-conversion API, the local DuckDB
lookup and the BERN annotation service) are modelled by oracle functions
carried in an `Env` record, and every network interaction is recorded as
an event in an `Ev` trace so that "performs no network call" style
properties are expressible.  Python strings are modelled by `String`;
absent XML text nodes are modelled by the empty string (Python code
treats `None` and `""` the same way in every branch the claims touch,
via truthiness tests).
-/

/-- Python `s.startswith(p)`. -/
def startsWithPy (s p : String) : Bool :=
  p.data.isPrefixOf s.data

/-- Python `s.upper()` (ASCII, which is all the code ever compares). -/
def upperPy (s : String) : String :=
  ⟨s.data.map Char.toUpper⟩

/-- Python whitespace test used by `str.strip()`. -/
def isSpacePy (c : Char) : Bool :=
  c = ' ' || c = '\t' || c = '\n' || c = '\r' || c = '\x0b' || c = '\x0c'

/-- Python `s.strip()`. -/
def stripPy (s : String) : String :=
  ⟨((s.data.dropWhile isSpacePy).reverse.dropWhile isSpacePy).reverse⟩

/-- Membership test `pat in s` over char lists (Python `in` for strings). -/
def containsAux (pat : List Char) : List Char → Bool
  | [] => pat.isPrefixOf []
  | c :: rest => pat.isPrefixOf (c :: rest) || containsAux pat rest

/-- Python `pat in s`. -/
def containsPy (s pat : String) : Bool :=
  containsAux pat.data s.data

/-- One entity returned by the BERN annotation service
(`fetch_entities_from_bern` builds `text`/`type`/`identifier`/`start`/`end`). -/
structure Entity where
  text : String
  etype : String
  identifier : Option String
  first : Nat
  last : Nat
deriving DecidableEq, Repr

/-- Trace events: every outbound call and every sleep the code performs. -/
inductive Ev where
  | bernCall (attempt : Nat)
  | sleep (units : Nat)
  | dbLookup (pmid : String)
  | apiConvert (pmid : String)
  | httpFetch (id : String)
deriving DecidableEq, Repr

/-- The retry loop of `fetch_entities_from_bern` (extractor.py:32-65):
`for attempt in range(max_retries)`, on success return the parsed
entities, on failure `time.sleep(2 * (attempt + 1))` and retry; after the
loop return `[]`.  The oracle gives the outcome of the HTTP POST on each
attempt (`none` = transport error or non-success status). -/
def bernLoop (oracle : Nat → Option (List Entity)) : Nat → Nat → List Ev × List Entity
  | _, 0 => ([], [])
  | attempt, fuel + 1 =>
    match oracle attempt with
    | some es => ([Ev.bernCall attempt], es)
    | none =>
      let r := bernLoop oracle (attempt + 1) fuel
      (Ev.bernCall attempt :: Ev.sleep (2 * (attempt + 1)) :: r.1, r.2)

/-- `fetch_entities_from_bern` (extractor.py:18-65): returns `[]` with no
network traffic when entity extraction is disabled or the caption is
shorter than 20 characters; otherwise runs the 3-attempt retry loop.
All call sites use the default `max_retries=3`. -/
def fetch_entities_from_bern (enabled : Bool) (oracle : Nat → Option (List Entity))
    (caption : String) : List Ev × List Entity :=
  if !enabled then ([], [])
  else if caption.length < 20 then ([], [])
  else bernLoop oracle 0 3

/-- Is this event an annotation-service HTTP call? -/
def isBernCall : Ev → Bool
  | Ev.bernCall _ => true
  | _ => false

/-- Is this event the first-attempt annotation call (attempt index 0)?
Each invocation of `fetch_entities_from_bern` that reaches the network
emits exactly one such event, so counting them counts invocations. -/
def isBernCall0 : Ev → Bool
  | Ev.bernCall 0 => true
  | _ => false

/-- Number of annotation-service HTTP calls in a trace. -/
def bernCallCount (l : List Ev) : Nat := l.countP isBernCall

/-- Number of annotator invocations that reached the network. -/
def bernRoundCount (l : List Ev) : Nat := l.countP isBernCall0

/-! ## BioC document model and the XML parsing of `fetch_bioc_paper` -/

/-- A BioC `passage` element: its `infon` children as (key, text) pairs in
document order, and its `text` child (empty string when absent). -/
structure Passage where
  infons : List (String × String)
  text : String
deriving DecidableEq, Repr

/-- A BioC `document` element: direct `infon` children and `passage`
descendants in document order. -/
structure BioCDocument where
  infons : List (String × String)
  passages : List Passage
deriving DecidableEq, Repr

/-- The BioC `collection` root: its own `infon` children and its
`document` children. -/
structure Collection where
  infons : List (String × String)
  documents : List BioCDocument
deriving DecidableEq, Repr

/-- One figure record built by `fetch_bioc_paper` (extractor.py:185-189). -/
structure Figure where
  caption : String
  url : Option String
  entities : List Entity
deriving DecidableEq, Repr

/-- Does passage `p` carry an infon child with key `k` and text `v`?
This is the XPath test `passage/infon[@key=k][.=v]` of extractor.py. -/
def hasInfonVal (p : Passage) (k v : String) : Bool :=
  p.infons.any fun kv => kv.1 == k && kv.2 == v

/-- `title_elements` (extractor.py:145-146): passages tagged
`section_type=TITLE`, then passages tagged `type=title`, concatenated in
that order. -/
def titlePassages (d : BioCDocument) : List Passage :=
  d.passages.filter (fun p => hasInfonVal p "section_type" "TITLE") ++
  d.passages.filter (fun p => hasInfonVal p "type" "title")

/-- `abstract_elements` (extractor.py:156-157). -/
def abstractPassages (d : BioCDocument) : List Passage :=
  d.passages.filter (fun p => hasInfonVal p "section_type" "ABSTRACT") ++
  d.passages.filter (fun p => hasInfonVal p "type" "abstract")

/-- `figure_elements` (extractor.py:168-171), four queries concatenated. -/
def figurePassages (d : BioCDocument) : List Passage :=
  d.passages.filter (fun p => hasInfonVal p "section_type" "FIG") ++
  d.passages.filter (fun p => hasInfonVal p "section_type" "FIGURE") ++
  d.passages.filter (fun p => hasInfonVal p "type" "fig") ++
  d.passages.filter (fun p => hasInfonVal p "type" "figure-caption")

/-- First passage in the list with a nonempty text, if any
(extractor.py:149-153: iterate, take the first truthy text, break). -/
def firstNonemptyText : List Passage → Option String
  | [] => none
  | p :: ps => if p.text = "" then firstNonemptyText ps else some p.text

/-- The title contributed by one document's title passages, if any. -/
def docTitleTx (d : BioCDocument) : Option String :=
  firstNonemptyText (titlePassages d)

/-- First infon with the given key in a list (Python `for infon in ...:
if infon.get("key") == k: ...; break`). -/
def firstInfonVal (infons : List (String × String)) (k : String) : Option String :=
  (infons.find? fun kv => kv.1 == k).map (fun kv => kv.2)

/-- `abstract += " " + text` step (extractor.py:162-165): space-join. -/
def joinStep (a s : String) : String :=
  if a = "" then s else a ++ " " ++ s

/-- Processing of one abstract passage (skip empty texts). -/
def absStep (a : String) (p : Passage) : String :=
  if p.text = "" then a else joinStep a p.text

/-- Figure URL: the code iterates all infons of the passage and reassigns
`figure_url` on every key in {url, file, fig_url}, so the last one wins
(extractor.py:180-182). -/
def figUrl (p : Passage) : Option String :=
  p.infons.foldl
    (fun u kv => if kv.1 == "url" || kv.1 == "file" || kv.1 == "fig_url" then some kv.2 else u)
    none

/-- Processing of one figure passage (extractor.py:173-189): skip empty
texts; otherwise call the annotator on the caption and append the figure.
The accumulated state is (event trace, figures so far). -/
def figStep (e : Bool) (o : Nat → Option (List Entity))
    (st : List Ev × List Figure) (p : Passage) : List Ev × List Figure :=
  if p.text = "" then st
  else
    let r := fetch_entities_from_bern e o p.text
    (st.1 ++ r.1, st.2 ++ [⟨p.text, figUrl p, r.2⟩])

/-- Parser state across documents: title, abstract, figures, event trace. -/
structure ParseSt where
  title : String
  abstract : String
  figs : List Figure
  evs : List Ev
deriving DecidableEq, Repr

/-- One iteration of `for document in documents` (extractor.py:143-196):
title is reassigned from this document's title passages if any has a
nonempty text, abstracts are space-joined onto the accumulator, figures
are appended; if the title is still falsy afterwards, fall back to this
document's `article-title` infon. -/
def processDoc (e : Bool) (o : Nat → Option (List Entity))
    (st : ParseSt) (d : BioCDocument) : ParseSt :=
  let t1 := match docTitleTx d with
            | some s => s
            | none => st.title
  let a1 := (abstractPassages d).foldl absStep st.abstract
  let ef := (figurePassages d).foldl (figStep e o) (st.evs, st.figs)
  let t2 := if t1 = "" then
              match firstInfonVal d.infons "article-title" with
              | some s => s
              | none => t1
            else t1
  ⟨t2, a1, ef.2, ef.1⟩

/-- All infon descendants of the collection root in document order, as
searched by `root.findall(".//infon[@key='article-title']")`
(extractor.py:200). -/
def allInfons (c : Collection) : List (String × String) :=
  c.infons ++ c.documents.flatMap (fun d => d.infons ++ d.passages.flatMap Passage.infons)

/-- The whole XML-extraction part of `fetch_bioc_paper`
(extractor.py:128-207): fold over the documents, then the root-level
`article-title` fallback when the title is still falsy. -/
def parseCollection (e : Bool) (o : Nat → Option (List Entity)) (c : Collection) : ParseSt :=
  let st := c.documents.foldl (processDoc e o) ⟨"", "", [], []⟩
  if st.title = "" then
    match firstInfonVal (allInfons c) "article-title" with
    | some s => ⟨s, st.abstract, st.figs, st.evs⟩
    | none => st
  else st

/-! ## Environment, fetch, identifier resolution and the pipeline -/

/-- Outcome of the HTTP GET against the BioC endpoint: a parsed body, an
HTTP error status (`raise_for_status`), or a transport error. -/
inductive HttpResult where
  | ok (body : Collection)
  | httpError (status : Nat)
  | netError
deriving DecidableEq, Repr

/-- Error taxonomy actually observable by callers of `process_paper_id`:
the two distinct `ValueError` messages it raises
(extractor.py:351 and extractor.py:363). -/
inductive PipeErr where
  | resolutionFailed (pmid : String)
  | fetchFailed (id : String)
deriving DecidableEq, Repr

/-- A row of the `publications` table / the dict returned by
`fetch_bioc_paper`; `figures_json` is modelled as the figure list. -/
structure Paper where
  pmcid : String
  title : String
  abstract : String
  figures : List Figure
deriving DecidableEq, Repr

/-- The `publications` table (primary key `pmcid`). -/
abbrev Table := List Paper

/-- External world: the local mapping database, the NCBI conversion API,
the BioC endpoint, the HEAD existence probe, the BERN annotation oracle,
the `ENABLE_ENTITY_EXTRACTION` flag, and whether the DuckDB insert
succeeds (false = `conn.execute` raises inside `insert_paper`). -/
structure Env where
  db : String → Option String
  api : String → Option String
  http : String → HttpResult
  probe : String → Bool
  bern : Nat → Option (List Entity)
  enabled : Bool
  insertOk : Bool

/-- Copy of `env` with the storage-insert outcome replaced. -/
def setInsert (e : Env) (b : Bool) : Env :=
  ⟨e.db, e.api, e.http, e.probe, e.bern, e.enabled, b⟩

/-- The prefix normalization at the top of `fetch_bioc_paper`
(extractor.py:104-105) — note: case-SENSITIVE `startswith("PMC")`. -/
def fetchNormId (id : String) : String :=
  if startsWithPy id "PMC" then id else "PMC" ++ id

/-- `fetch_bioc_paper` (extractor.py:94-229), XML format: normalize the
id, issue the GET, parse title/abstract/figures out of the collection and
return them only if at least one is nonempty; every HTTP error (404
included) and every other exception is caught and turned into `None`. -/
def fetch_bioc_paper (env : Env) (id : String) : List Ev × Option Paper :=
  let pid := fetchNormId id
  match env.http pid with
  | HttpResult.ok body =>
    let p := parseCollection env.enabled env.bern body
    if p.title = "" ∧ p.abstract = "" ∧ p.figs = []
    then (Ev.httpFetch pid :: p.evs, none)
    else (Ev.httpFetch pid :: p.evs, some ⟨pid, p.title, p.abstract, p.figs⟩)
  | HttpResult.httpError _ => ([Ev.httpFetch pid], none)
  | HttpResult.netError => ([Ev.httpFetch pid], none)

/-- `get_pmcid_from_database` (extractor.py:280-322): query the mapping
table with the stripped PMID and enforce the PMC prefix
(case-insensitively) on the result. -/
def get_pmcid_from_database (env : Env) (pmid : String) : Option String :=
  match env.db (stripPy pmid) with
  | some p => some (if startsWithPy (upperPy p) "PMC" then p else "PMC" ++ p)
  | none => none

/-- Steps 1-2 of `process_paper_id` (extractor.py:330-355): an identifier
that already starts with "PMC" case-insensitively is passed through
untouched with no lookup; otherwise it is treated as a PMID and resolved
via the local database, then the conversion API; finally the prefix is
re-ensured (again case-insensitively, so nothing is added for ids that
reached this point prefixed). -/
def resolveStage (env : Env) (raw : String) : List Ev × Except PipeErr String :=
  let step2 := fun (id1 : String) =>
    if startsWithPy (upperPy id1) "PMC" then id1 else "PMC" ++ id1
  if startsWithPy (upperPy raw) "PMC" then ([], Except.ok (step2 raw))
  else
    match get_pmcid_from_database env raw with
    | some p => ([Ev.dbLookup raw], Except.ok (step2 p))
    | none =>
      match env.api raw with
      | some p => ([Ev.dbLookup raw, Ev.apiConvert raw], Except.ok (step2 p))
      | none => ([Ev.dbLookup raw, Ev.apiConvert raw],
                 Except.error (PipeErr.resolutionFailed raw))

/-- The re-annotation of one figure in `process_paper_id`
(extractor.py:367-376): captions strictly longer than 20 characters are
re-annotated (exceptions degrade to `[]`; our annotator model is total),
everything else gets its entity list reset to `[]`. -/
def annotStep (e : Bool) (o : Nat → Option (List Entity))
    (st : List Ev × List Figure) (f : Figure) : List Ev × List Figure :=
  if 20 < f.caption.length then
    let r := fetch_entities_from_bern e o f.caption
    (st.1 ++ r.1, st.2 ++ [⟨f.caption, f.url, r.2⟩])
  else (st.1, st.2 ++ [⟨f.caption, f.url, []⟩])

/-- The `if ENABLE_ENTITY_EXTRACTION and paper_data.get("figures")`
block of `process_paper_id` (extractor.py:366-376). -/
def annotateFigures (e : Bool) (o : Nat → Option (List Entity))
    (figs : List Figure) : List Ev × List Figure :=
  if e && !figs.isEmpty then figs.foldl (annotStep e o) ([], []) else ([], figs)

/-- The `INSERT OR REPLACE INTO publications` of `insert_paper`
(storage.py:34-37): replace the row carrying the `pmcid` primary key
(unique under the key constraint), or append a fresh row. -/
def upsertRow : Table → Paper → Table
  | [], r => [r]
  | x :: xs, r => if x.pmcid = r.pmcid then r :: xs else x :: upsertRow xs r

/-- `insert_paper` (storage.py:29-40) including its blanket `except`
clause: on a raising insert the table is left untouched and the caller
is none the wiser. -/
def insert_paper (t : Table) (ok : Bool) (r : Paper) : Table :=
  if ok then upsertRow t r else t

/-- `process_paper_id` up to (but excluding) the database insert:
resolve, fetch, re-annotate (extractor.py:325-376). -/
def processCore (env : Env) (raw : String) : List Ev × Except PipeErr Paper :=
  match resolveStage env raw with
  | (evs, Except.error e) => (evs, Except.error e)
  | (evs, Except.ok pid) =>
    let fr := fetch_bioc_paper env pid
    match fr.2 with
    | none => (evs ++ fr.1, Except.error (PipeErr.fetchFailed pid))
    | some paper =>
      let ar := annotateFigures env.enabled env.bern paper.figures
      (evs ++ fr.1 ++ ar.1, Except.ok ⟨paper.pmcid, paper.title, paper.abstract, ar.2⟩)

/-- Result of one `process_paper_id` call: the event trace, the
`publications` table afterwards, and the returned paper or raised error. -/
structure PipeOut where
  evs : List Ev
  table : Table
  res : Except PipeErr Paper

/-- `process_paper_id` (extractor.py:325-384): the core followed by
`insert_paper`; the paper is returned whether or not the insert stuck. -/
def process_paper_id (env : Env) (t : Table) (raw : String) : PipeOut :=
  match processCore env raw with
  | (evs, Except.error e) => ⟨evs, t, Except.error e⟩
  | (evs, Except.ok p) => ⟨evs, insert_paper t env.insertOk p, Except.ok p⟩

/-! ## Batch watcher (`batch_processor.py`) -/

/-- `check_pmc_id_exists` (extractor.py:68-91): case-insensitive prefix
enforcement, then a HEAD probe. -/
def check_pmc_id_exists (env : Env) (pid : String) : Bool :=
  env.probe (if startsWithPy (upperPy pid) "PMC" then pid else "PMC" ++ pid)

/-- Availability of one identifier (`check_available_papers` loop body,
batch_processor.py:109-159): returns the PMCID to process when available.
Step 4 (the PubMed search) only logs, so every fall-through is
unavailable. -/
def checkOne (env : Env) (pid : String) : Option String :=
  if startsWithPy (upperPy pid) "PMC" then
    if check_pmc_id_exists env pid then some pid else none
  else
    match get_pmcid_from_database env pid with
    | some dbp => some (if startsWithPy (upperPy dbp) "PMC" then dbp else "PMC" ++ dbp)
    | none =>
      match env.api pid with
      | some ap =>
        let ap2 := if startsWithPy (upperPy ap) "PMC" then ap else "PMC" ++ ap
        if check_pmc_id_exists env ap2 then some ap2 else none
      | none => none

/-- `check_available_papers` (batch_processor.py:101-162): partition the
identifiers, preserving order, into available (id, pmcid) pairs and
unavailable ids. -/
def check_available_papers (env : Env) : List String → List (String × String) × List String
  | [] => ([], [])
  | pid :: rest =>
    let r := check_available_papers env rest
    match checkOne env pid with
    | some pm => ((pid, pm) :: r.1, r.2)
    | none => (r.1, pid :: r.2)

/-- One iteration of the per-paper loop in `process_file`
(batch_processor.py:73-88): run the pipeline on the entry's PMCID,
count a success or — catching the exception — a failure.  State is
(publications table, success count, fail count). -/
def runEntry (env : Env) (st : Table × Nat × Nat) (entry : String × String) :
    Table × Nat × Nat :=
  let out := process_paper_id env st.1 entry.2
  match out.res with
  | Except.ok _ => (out.table, st.2.1 + 1, st.2.2)
  | Except.error _ => (st.1, st.2.1, st.2.2 + 1)

/-- Flat version of the batch loop. -/
def runEntries (env : Env) (t : Table) (entries : List (String × String)) :
    Table × Nat × Nat :=
  entries.foldl (runEntry env) (t, 0, 0)

/-- Successive slices `available[i:i+BATCH_SIZE]`
(batch_processor.py:69-70); the chunk size is `n + 1` so that it is
always positive, and the fuel argument (instantiated with the list
length) makes the recursion structural. -/
def chunksAux (n : Nat) : Nat → List α → List (List α)
  | 0, _ => []
  | _, [] => []
  | Nat.succ fuel, x :: xs => (x :: xs).take (n + 1) :: chunksAux n fuel ((x :: xs).drop (n + 1))

/-- `available` split into batches of size `n + 1`. -/
def chunks (n : Nat) (l : List α) : List (List α) :=
  chunksAux n l.length l

/-- The summary sidecar written by `process_file`
(batch_processor.py:90-92). -/
structure Summary where
  total : Nat
  available : Nat
  success : Nat
  failed : Nat
  skipped : Nat
deriving DecidableEq, Repr

/-- Terminal state of a watched file: renamed `.completed` with its
summary sidecar, or renamed `.failed`. -/
inductive FileOutcome where
  | completed (s : Summary)
  | failed
deriving DecidableEq, Repr

/-- `paper_ids = [line.strip() for line in f if line.strip()]`
(batch_processor.py:56). -/
def cleanIds (lines : List String) : List String :=
  (lines.map stripPy).filter (fun l => !(l == ""))

/-- `process_file` (batch_processor.py:53-99): on a readable file, strip
the lines, partition by availability, process the available entries in
chunks of `bs + 1` catching every per-entry error, then write the
summary and rename to `.completed`; an error in the whole-file handling
(modelled by the unreadable-file case) renames to `.failed` instead. -/
def process_file (env : Env) (bs : Nat) (t : Table)
    (readRes : Except Unit (List String)) : FileOutcome :=
  match readRes with
  | Except.error _ => FileOutcome.failed
  | Except.ok lines =>
    let ids := cleanIds lines
    let av := check_available_papers env ids
    let r := (chunks bs av.1).foldl (fun st ch => ch.foldl (runEntry env) st) (t, 0, 0)
    FileOutcome.completed ⟨ids.length, av.1.length, r.2.1, r.2.2, av.2.length⟩

/-! ## Mapping-file import (`help.py: build_pmid_to_pmcid_mapping`) -/

/-- Python `s.replace(pat, "")` for a nonempty pattern, with a fuel
argument (instantiated with the string length) making the left-to-right
scan structural. -/
def replaceAllAux (p : Char) (ps : List Char) : Nat → List Char → List Char
  | 0, l => l
  | _, [] => []
  | Nat.succ fuel, c :: rest =>
    if (p :: ps).isPrefixOf (c :: rest)
    then replaceAllAux p ps fuel (rest.drop ps.length)
    else c :: replaceAllAux p ps fuel rest

/-- Python `s.replace(pat, "")`. -/
def replacePy (s pat : String) : String :=
  match pat.data with
  | [] => s
  | p :: ps => ⟨replaceAllAux p ps s.data.length s.data⟩

/-- Python `s.split('\t')`: split on every tab, keeping empty fields. -/
def splitTabAux : List Char → List Char → List (List Char)
  | [], acc => [acc.reverse]
  | c :: rest, acc =>
    if c = '\t' then acc.reverse :: splitTabAux rest []
    else splitTabAux rest (c :: acc)

/-- Python `line.split('\t')`. -/
def splitTab (s : String) : List String :=
  (splitTabAux s.data []).map (fun l => ⟨l⟩)

/-- First `re.findall(r'PMC(\d+)', line)` match: scan for "PMC" followed
by at least one digit and return the maximal digit run. -/
def findPMCNum : List Char → Option (List Char)
  | [] => none
  | c :: rest =>
    if ("PMC".data).isPrefixOf (c :: rest) then
      let ds := ((c :: rest).drop 3).takeWhile Char.isDigit
      if ds.isEmpty then findPMCNum rest else some ds
    else findPMCNum rest

/-- Outcome of parsing one (already stripped) mapping-file line. -/
inductive LineParse where
  | mapEntry (pmid pmcid : String)
  | skipLine
  | errLine
deriving DecidableEq, Repr

/-- The per-line parsing of `build_pmid_to_pmcid_mapping`
(help.py:62-108): blank/comment lines are skipped; an OA-list line
(`path TAB title TAB PMCID TAB PMID:n TAB license`) yields its pair; a
standard `PMID TAB PMCID` line yields its pair uppercased; otherwise a
`PMC<digits>` token is regex-extracted as a last resort; anything else
is an error line. -/
def parseMappingLine (line : String) : LineParse :=
  if line = "" || startsWithPy line "#" then LineParse.skipLine
  else
    let parts := splitTab line
    if 4 ≤ parts.length && containsPy (parts.getD 3 "") "PMID:" then
      let pmid := stripPy (replacePy (parts.getD 3 "") "PMID:")
      let pmcid := stripPy (parts.getD 2 "")
      LineParse.mapEntry pmid (if startsWithPy pmcid "PMC" then pmcid else "PMC" ++ pmcid)
    else if 2 ≤ parts.length && startsWithPy (upperPy (stripPy (parts.getD 1 ""))) "PMC" then
      let pmid := stripPy (parts.getD 0 "")
      let pmcid := upperPy (stripPy (parts.getD 1 ""))
      LineParse.mapEntry pmid (if startsWithPy pmcid "PMC" then pmcid else "PMC" ++ pmcid)
    else if containsPy line "PMC" then
      match findPMCNum line.data with
      | some ds => LineParse.mapEntry ⟨ds⟩ ("PMC" ++ ⟨ds⟩)
      | none => LineParse.errLine
    else LineParse.errLine

/-- The first-line handling of `build_pmid_to_pmcid_mapping`
(help.py:50-58): the first line is consumed as a presumed timestamp and
skipped unless it starts with `oa_package`, in which case the file is
rewound and every line is processed. -/
def effectiveLines (lines : List String) : List String :=
  match lines with
  | [] => []
  | first :: rest => if startsWithPy (stripPy first) "oa_package" then first :: rest else rest

/-- `INSERT OR REPLACE INTO pmid_to_pmcid` keyed by the `pmid` primary
key (help.py:116-129). -/
def upsertKV : List (String × String) → String × String → List (String × String)
  | [], e => [e]
  | x :: xs, e => if x.1 = e.1 then e :: xs else x :: upsertKV xs e

/-- One iteration of the import loop (help.py:60-113): strip the line,
parse it, and upsert a parsed mapping; skipped and error lines leave the
table alone. -/
def importStep (t : List (String × String)) (l : String) : List (String × String) :=
  match parseMappingLine (stripPy l) with
  | LineParse.mapEntry pmid pmcid => upsertKV t (pmid, pmcid)
  | _ => t

/-- `build_pmid_to_pmcid_mapping` (help.py:11-140): the table is dropped
and rebuilt from scratch; each effective line is stripped, parsed, and
mapping entries are upserted in order (the batching in groups of 1000
preserves that order). -/
def build_pmid_to_pmcid_mapping (lines : List String) : List (String × String) :=
  (effectiveLines lines).foldl importStep []

/-- `SELECT pmcid FROM pmid_to_pmcid WHERE pmid = ?`. -/
def lookupKV (t : List (String × String)) (k : String) : Option String :=
  (t.find? fun x => x.1 == k).map (fun x => x.2)

/-! ## Characterisations and concrete data used by the claims -/

/-- Last element of a list, or the default: used to state that the last
document with a nonempty title passage wins. -/
def lastD : List String → String → String
  | [], d => d
  | x :: xs, _ => lastD xs x

/-- The nonempty abstract texts one document contributes, in order. -/
def docAbstractTexts (d : BioCDocument) : List String :=
  (abstractPassages d).filterMap fun p => if p.text = "" then none else some p.text

/-- The figures one document contributes, in order. -/
def docFigures (e : Bool) (o : Nat → Option (List Entity)) (d : BioCDocument) : List Figure :=
  (figurePassages d).filterMap fun p =>
    if p.text = "" then none
    else some ⟨p.text, figUrl p, (fetch_entities_from_bern e o p.text).2⟩

/-- The annotator events one document's figure loop emits, in order. -/
def docFigEvsL (e : Bool) (o : Nat → Option (List Entity)) (d : BioCDocument) : List Ev :=
  ((figurePassages d).filterMap fun p =>
    if p.text = "" then none else some (fetch_entities_from_bern e o p.text).1).flatMap id

/-- A BioC collection with a single one-figure document whose caption is
`c` (used to exercise the fetch-time annotation path). -/
def oneFigColl (c : String) : Collection :=
  ⟨[], [⟨[], [⟨[("section_type", "FIG")], c⟩]⟩]⟩

/-- Environment whose BioC endpoint always returns `oneFigColl c`, with
entity extraction enabled. -/
def envFig (c : String) (o : Nat → Option (List Entity)) : Env :=
  ⟨fun _ => none, fun _ => none, fun _ => HttpResult.ok (oneFigColl c),
   fun _ => false, o, true, true⟩

/-- Environment whose BioC endpoint returns a content-free collection. -/
def envEmptyBody : Env :=
  ⟨fun _ => none, fun _ => none, fun _ => HttpResult.ok ⟨[], []⟩,
   fun _ => false, fun _ => none, true, true⟩

/-- Environment whose BioC endpoint answers HTTP 404. -/
def env404 : Env :=
  ⟨fun _ => none, fun _ => none, fun _ => HttpResult.httpError 404,
   fun _ => false, fun _ => none, true, true⟩

/-- Environment with all remote services inert (used for the resolution
code-path, which must not touch them). -/
def envInert : Env :=
  ⟨fun _ => none, fun _ => none, fun _ => HttpResult.httpError 404,
   fun _ => false, fun _ => none, true, true⟩

/-- Environment whose BioC endpoint returns a single titled document and
whose entity extraction is disabled (a happy path for the pipeline). -/
def envTitled : Env :=
  ⟨fun _ => none, fun _ => none,
   fun _ => HttpResult.ok ⟨[], [⟨[], [⟨[("section_type", "TITLE")], "T"⟩]⟩]⟩,
   fun _ => false, fun _ => none, false, true⟩

/-- Document with title passage "A" and abstract passage "X". -/
def c3doc1 : BioCDocument :=
  ⟨[], [⟨[("section_type", "TITLE")], "A"⟩, ⟨[("section_type", "ABSTRACT")], "X"⟩]⟩

/-- Document with title passage "B" and abstract passage "Y". -/
def c3doc2 : BioCDocument :=
  ⟨[], [⟨[("section_type", "TITLE")], "B"⟩, ⟨[("section_type", "ABSTRACT")], "Y"⟩]⟩

/-- The OA-list mapping line of the end-to-end property in the spec. -/
def oaLine : String := "file.pdf\tSome Title\tPMC123\tPMID:999\tCC-BY"

/-- The `publications` primary-key invariant: no two rows share a
`pmcid`. -/
def keysNodup (t : Table) : Prop :=
  (t.map (fun r => r.pmcid)).Nodup

/-! ## Claim theorems -/

/-- C1: the spec says that a raw identifier already carrying the PMC
prefix case-insensitively is returned canonicalized (uppercased, prefix
present exactly once) by the normalization step of `process_paper_id`,
with no network call before the fetch.  The code violates the
canonicalization half: `"pmc123"` is passed through unchanged (not
uppercased), and `fetch_bioc_paper`'s case-sensitive prefix check then
prepends a second prefix, so the fetch requests `"PMCpmc123"`.  The
no-network-call half does hold (the event trace shows only the fetch). -/
theorem c1_lowercase_pmc_id_not_canonicalized :
    resolveStage envInert "pmc123" = ([], Except.ok "pmc123") ∧
    upperPy "pmc123" = "PMC123" ∧ "pmc123" ≠ "PMC123" ∧
    fetchNormId "pmc123" = "PMCpmc123" ∧
    (process_paper_id envInert [] "pmc123").evs = [Ev.httpFetch "PMCpmc123"] :=
  ⟨rfl, rfl, by decide, rfl, rfl⟩

/-- C2 counterexample: the claim says a content-free response signals a
`FetchError` distinct from the `NotFound` of an HTTP 404, so that a
caller of the fetch can tell the two apart.  In the code both conditions
produce the very same outcome: `fetch_bioc_paper` returns `None` and
`process_paper_id` raises the same fetch-failure error, as shown here at
a concrete content-free body and a concrete 404. -/
theorem c2_counterexample_failures_indistinguishable :
    (fetch_bioc_paper envEmptyBody "PMC1").2 = none ∧
    (fetch_bioc_paper env404 "PMC1").2 = none ∧
    fetch_bioc_paper envEmptyBody "PMC1" = fetch_bioc_paper env404 "PMC1" ∧
    (process_paper_id envEmptyBody [] "PMC1").res = Except.error (PipeErr.fetchFailed "PMC1") ∧
    (process_paper_id env404 [] "PMC1").res = Except.error (PipeErr.fetchFailed "PMC1") :=
  ⟨rfl, rfl, rfl, rfl, rfl⟩

/-- C2 amended: both failure kinds collapse to the same signal — a
response from which no title/abstract/figure can be extracted and an
HTTP-level error (404 included) each make `fetch_bioc_paper` return
`None`, and `process_paper_id` converts that one `None` into the one
fetch-failure error, so callers cannot tell the two apart. -/
theorem c2_amended_failures_collapse (env : Env) (id : String) (t : Table) :
    (∀ body, env.http (fetchNormId id) = HttpResult.ok body →
        (parseCollection env.enabled env.bern body).title = "" →
        (parseCollection env.enabled env.bern body).abstract = "" →
        (parseCollection env.enabled env.bern body).figs = [] →
        (fetch_bioc_paper env id).2 = none) ∧
    (∀ s, env.http (fetchNormId id) = HttpResult.httpError s →
        (fetch_bioc_paper env id).2 = none) ∧
    (startsWithPy (upperPy id) "PMC" = true →
        (fetch_bioc_paper env id).2 = none →
        (process_paper_id env t id).res = Except.error (PipeErr.fetchFailed id)) := by
  refine ⟨?_, ?_, ?_⟩
  · intro body hb h1 h2 h3
    simp [fetch_bioc_paper, hb, h1, h2, h3]
  · intro s hs
    simp [fetch_bioc_paper, hs]
  · intro hpmc hnone
    simp [process_paper_id, processCore, resolveStage, hpmc, hnone]

/-- C2 amended, witnessed at the two concrete environments. -/
theorem c2_amended_witness :
    (fetch_bioc_paper envEmptyBody "PMC2").2 = none ∧
    (fetch_bioc_paper env404 "PMC2").2 = none ∧
    (process_paper_id env404 [] "PMC2").res = Except.error (PipeErr.fetchFailed "PMC2") :=
  ⟨(c2_amended_failures_collapse envEmptyBody "PMC2" []).1 ⟨[], []⟩ rfl rfl rfl rfl,
   (c2_amended_failures_collapse env404 "PMC2" []).2.1 404 rfl,
   (c2_amended_failures_collapse env404 "PMC2" []).2.2 (by decide)
     ((c2_amended_failures_collapse env404 "PMC2" []).2.1 404 rfl)⟩

/-- C5: on any caption long enough to reach the network and any sequence
of attempt outcomes, the annotator makes at most 3 HTTP calls; after a
failed attempt `k` (1-based) it sleeps `2 * k` units before the next
attempt, so the delays 2, 4, 6 are non-decreasing; and once all attempts
are exhausted it returns the empty entity list instead of raising. -/
theorem c5_bern_retry_schedule (caption : String) (oracle : Nat → Option (List Entity))
    (h : ¬ caption.length < 20) :
    bernCallCount (fetch_entities_from_bern true oracle caption).1 ≤ 3 ∧
    (∀ es, oracle 0 = some es →
       fetch_entities_from_bern true oracle caption = ([Ev.bernCall 0], es)) ∧
    (∀ es, oracle 0 = none → oracle 1 = some es →
       fetch_entities_from_bern true oracle caption =
         ([Ev.bernCall 0, Ev.sleep 2, Ev.bernCall 1], es)) ∧
    (∀ es, oracle 0 = none → oracle 1 = none → oracle 2 = some es →
       fetch_entities_from_bern true oracle caption =
         ([Ev.bernCall 0, Ev.sleep 2, Ev.bernCall 1, Ev.sleep 4, Ev.bernCall 2], es)) ∧
    (oracle 0 = none → oracle 1 = none → oracle 2 = none →
       fetch_entities_from_bern true oracle caption =
         ([Ev.bernCall 0, Ev.sleep 2, Ev.bernCall 1, Ev.sleep 4, Ev.bernCall 2, Ev.sleep 6], [])) := by
  have hf : fetch_entities_from_bern true oracle caption = bernLoop oracle 0 3 := by
    simp [fetch_entities_from_bern, h]
  refine ⟨?_, ?_, ?_, ?_, ?_⟩
  · rw [hf]
    rcases h0 : oracle 0 with _ | es0 <;> rcases h1 : oracle 1 with _ | es1 <;>
      rcases h2 : oracle 2 with _ | es2 <;>
        simp [bernLoop, h0, h1, h2, bernCallCount, isBernCall]
  · intro es h0; rw [hf]; simp [bernLoop, h0]
  · intro es h0 h1; rw [hf]; simp [bernLoop, h0, h1]
  · intro es h0 h1 h2; rw [hf]; simp [bernLoop, h0, h1, h2]
  · intro h0 h1 h2; rw [hf]; simp [bernLoop, h0, h1, h2]

/-- C5 witnessed on a 20-character caption with a persistently failing
service. -/
theorem c5_witness :
    ¬ ("aaaaaaaaaaaaaaaaaaaa" : String).length < 20 ∧
    bernCallCount (fetch_entities_from_bern true (fun _ => none) "aaaaaaaaaaaaaaaaaaaa").1 ≤ 3 ∧
    fetch_entities_from_bern true (fun _ => none) "aaaaaaaaaaaaaaaaaaaa" =
      ([Ev.bernCall 0, Ev.sleep 2, Ev.bernCall 1, Ev.sleep 4, Ev.bernCall 2, Ev.sleep 6], []) :=
  ⟨by decide,
   (c5_bern_retry_schedule "aaaaaaaaaaaaaaaaaaaa" (fun _ => none) (by decide)).1,
   (c5_bern_retry_schedule "aaaaaaaaaaaaaaaaaaaa" (fun _ => none) (by decide)).2.2.2.2
     rfl rfl rfl⟩

/-- C6: a caption shorter than 20 characters, or entity extraction being
disabled, makes the annotator return the empty list immediately with an
empty event trace — no network call. -/
theorem c6_short_or_disabled_returns_empty (enabled : Bool)
    (oracle : Nat → Option (List Entity)) (caption : String)
    (h : caption.length < 20 ∨ enabled = false) :
    fetch_entities_from_bern enabled oracle caption = ([], []) := by
  rcases h with h | h
  · cases enabled <;> simp [fetch_entities_from_bern, h]
  · subst h; simp [fetch_entities_from_bern]

/-- C6 witnessed on a short caption (extraction enabled) and on a long
caption (extraction disabled). -/
theorem c6_witness :
    (("tiny" : String).length < 20 ∨ (true : Bool) = false) ∧
    fetch_entities_from_bern true (fun _ => none) "tiny" = ([], []) ∧
    (("a caption long enough to annotate" : String).length < 20 ∨ (false : Bool) = false) ∧
    fetch_entities_from_bern false (fun _ => none) "a caption long enough to annotate" = ([], []) :=
  ⟨Or.inl (by decide),
   c6_short_or_disabled_returns_empty true (fun _ => none) "tiny" (Or.inl (by decide)),
   Or.inr rfl,
   c6_short_or_disabled_returns_empty false (fun _ => none)
     "a caption long enough to annotate" (Or.inr rfl)⟩

/-- Keys present after an upsert are the old keys or the new key. -/
theorem mem_keys_upsertRow (t : Table) (r : Paper) (k : String)
    (h : k ∈ (upsertRow t r).map (fun x => x.pmcid)) :
    k ∈ t.map (fun x => x.pmcid) ∨ k = r.pmcid := by
  induction t with
  | nil => simp [upsertRow] at h; simp [h]
  | cons x xs ih =>
    by_cases hk : x.pmcid = r.pmcid
    · rw [upsertRow, if_pos hk] at h
      rcases List.mem_cons.mp h with h | h
      · exact Or.inr h
      · exact Or.inl (List.mem_cons_of_mem _ h)
    · rw [upsertRow, if_neg hk] at h
      rcases List.mem_cons.mp h with h | h
      · exact Or.inl (by simp [h])
      · rcases ih h with h | h
        · exact Or.inl (List.mem_cons_of_mem _ h)
        · exact Or.inr h

/-- Upserting preserves the primary-key invariant. -/
theorem keysNodup_upsertRow (t : Table) (r : Paper) (h : keysNodup t) :
    keysNodup (upsertRow t r) := by
  induction t with
  | nil => simp [upsertRow, keysNodup]
  | cons x xs ih =>
    rw [keysNodup, List.map_cons, List.nodup_cons] at h
    obtain ⟨hx, hxs⟩ := h
    by_cases hk : x.pmcid = r.pmcid
    · rw [upsertRow, if_pos hk, keysNodup, List.map_cons, List.nodup_cons]
      exact ⟨hk ▸ hx, hxs⟩
    · rw [upsertRow, if_neg hk, keysNodup, List.map_cons, List.nodup_cons]
      refine ⟨fun hc => ?_, ih hxs⟩
      rcases mem_keys_upsertRow xs r _ hc with hc | hc
      · exact hx hc
      · exact hk hc

/-- Under the primary-key invariant, exactly one row carries the
upserted key afterwards, and it is the upserted row. -/
theorem upsertRow_filter_self (t : Table) (r : Paper) (h : keysNodup t) :
    (upsertRow t r).filter (fun x => x.pmcid == r.pmcid) = [r] := by
  induction t with
  | nil => simp [upsertRow]
  | cons x xs ih =>
    rw [keysNodup, List.map_cons, List.nodup_cons] at h
    obtain ⟨hx, hxs⟩ := h
    by_cases hk : x.pmcid = r.pmcid
    · rw [upsertRow, if_pos hk]
      have hnone : xs.filter (fun x => x.pmcid == r.pmcid) = [] := by
        rw [List.filter_eq_nil_iff]
        intro y hy hc
        exact hx (by
          rw [hk]
          rw [beq_iff_eq] at hc
          exact hc ▸ List.mem_map_of_mem _ hy)
      simp [List.filter_cons, hnone]
    · rw [upsertRow, if_neg hk]
      have hxb : (x.pmcid == r.pmcid) = false := by
        simpa using hk
      simp [List.filter_cons, hxb, ih hxs]

/-- Re-upserting a row already upserted is a no-op. -/
theorem upsertRow_absorb (t : Table) (r : Paper) :
    upsertRow (upsertRow t r) r = upsertRow t r := by
  induction t with
  | nil => simp [upsertRow]
  | cons x xs ih =>
    by_cases hk : x.pmcid = r.pmcid
    · rw [upsertRow, if_pos hk, upsertRow, if_pos rfl]
    · rw [upsertRow, if_neg hk, upsertRow, if_neg hk, ih]

/-- C8: document storage is an idempotent upsert keyed by the canonical
identifier — upserting twice under the same key leaves exactly one row
carrying the latest content (no second row, no merge of old and new
fields), preserves the key invariant, and re-upserting the same row
changes nothing. -/
theorem c8_upsert_idempotent (t : Table) (r r2 : Paper)
    (hnd : keysNodup t) (hk : r2.pmcid = r.pmcid) :
    (upsertRow (upsertRow t r) r2).filter (fun x => x.pmcid == r.pmcid) = [r2] ∧
    keysNodup (upsertRow (upsertRow t r) r2) ∧
    upsertRow (upsertRow t r) r = upsertRow t r := by
  refine ⟨?_, keysNodup_upsertRow _ _ (keysNodup_upsertRow _ _ hnd), upsertRow_absorb t r⟩
  have h1 := upsertRow_filter_self (upsertRow t r) r2 (keysNodup_upsertRow _ _ hnd)
  simpa [hk] using h1

/-- C8 witnessed: a fresh row and an updated row under the same key. -/
theorem c8_witness :
    keysNodup ([] : Table) ∧
    (Paper.mk "PMC9" "new title" "new abstract" []).pmcid =
      (Paper.mk "PMC9" "old title" "old abstract" []).pmcid ∧
    ((upsertRow (upsertRow [] (Paper.mk "PMC9" "old title" "old abstract" []))
        (Paper.mk "PMC9" "new title" "new abstract" [])).filter
      (fun x => x.pmcid == (Paper.mk "PMC9" "old title" "old abstract" []).pmcid) =
        [Paper.mk "PMC9" "new title" "new abstract" []] ∧
     keysNodup (upsertRow (upsertRow [] (Paper.mk "PMC9" "old title" "old abstract" []))
        (Paper.mk "PMC9" "new title" "new abstract" [])) ∧
     upsertRow (upsertRow [] (Paper.mk "PMC9" "old title" "old abstract" []))
        (Paper.mk "PMC9" "old title" "old abstract" []) =
       upsertRow [] (Paper.mk "PMC9" "old title" "old abstract" [])) :=
  ⟨List.nodup_nil, rfl,
   c8_upsert_idempotent [] (Paper.mk "PMC9" "old title" "old abstract" [])
     (Paper.mk "PMC9" "new title" "new abstract" []) List.nodup_nil rfl⟩

/-- The pre-insert part of the pipeline never looks at the insert
outcome. -/
theorem processCore_setInsert (env : Env) (b : Bool) (raw : String) :
    processCore (setInsert env b) raw = processCore env raw := rfl

/-- C10: when the storage insert raises, `insert_paper` swallows the
exception, so `process_paper_id` still returns the very paper it would
have returned, the table is left untouched, and the batch watcher's
per-entry loop counts the identifier as a success — a storage failure is
never surfaced as a pipeline failure. -/
theorem c10_storage_failure_invisible (env : Env) (t : Table) (raw : String) (p : Paper)
    (h : (process_paper_id (setInsert env true) t raw).res = Except.ok p) :
    (process_paper_id (setInsert env false) t raw).res = Except.ok p ∧
    (process_paper_id (setInsert env false) t raw).table = t ∧
    runEntries (setInsert env false) t [(raw, raw)] = (t, 1, 0) := by
  have hcore : processCore (setInsert env false) raw = processCore (setInsert env true) raw := by
    rw [processCore_setInsert, processCore_setInsert]
  rcases hc : processCore (setInsert env true) raw with ⟨evs, res⟩
  cases res with
  | error e =>
    rw [process_paper_id, hc] at h
    simp at h
  | ok q =>
    rw [process_paper_id, hc] at h
    simp at h
    subst h
    refine ⟨?_, ?_, ?_⟩
    · rw [process_paper_id, hcore, hc]
    · rw [process_paper_id, hcore, hc]
      simp [insert_paper, setInsert]
    · have hres : (process_paper_id (setInsert env false) t raw).res = Except.ok q := by
        rw [process_paper_id, hcore, hc]
      have htab : (process_paper_id (setInsert env false) t raw).table = t := by
        rw [process_paper_id, hcore, hc]
        simp [insert_paper, setInsert]
      rw [runEntries]
      simp only [List.foldl_cons, List.foldl_nil, runEntry, hres, htab]

/-- C10 witnessed: a happy-path environment whose insert raises. -/
theorem c10_witness :
    (process_paper_id (setInsert envTitled true) [] "PMC1").res =
      Except.ok (Paper.mk "PMC1" "T" "" []) ∧
    ((process_paper_id (setInsert envTitled false) [] "PMC1").res =
        Except.ok (Paper.mk "PMC1" "T" "" []) ∧
     (process_paper_id (setInsert envTitled false) [] "PMC1").table = [] ∧
     runEntries (setInsert envTitled false) [] [("PMC1", "PMC1")] = ([], 1, 0)) :=
  ⟨rfl, c10_storage_failure_invisible envTitled [] "PMC1" (Paper.mk "PMC1" "T" "" []) rfl⟩

/-- Retry attempts after the first never emit an attempt-0 call. -/
theorem bernRound_loop_pos (o : Nat → Option (List Entity)) (fuel : Nat) :
    ∀ k, 0 < k → (bernLoop o k fuel).1.countP isBernCall0 = 0 := by
  induction fuel with
  | zero => intro k _; simp [bernLoop]
  | succ n ih =>
    intro k hk
    have hck : isBernCall0 (Ev.bernCall k) = false := by
      cases k with
      | zero => omega
      | succ m => rfl
    have hcs : ∀ u, isBernCall0 (Ev.sleep u) = false := fun _ => rfl
    cases h : o k with
    | some es => simp [bernLoop, h, List.countP_cons, hck]
    | none =>
      rw [bernLoop]
      simp only [h]
      simp [List.countP_cons, hck, hcs, ih (k + 1) (by omega)]

/-- A run of the retry loop from attempt 0 emits exactly one attempt-0
call, whatever the outcomes. -/
theorem bernRound_loop_zero (o : Nat → Option (List Entity)) (n : Nat) :
    (bernLoop o 0 (n + 1)).1.countP isBernCall0 = 1 := by
  cases h0 : o 0 with
  | some es => simp [bernLoop, h0, isBernCall0]
  | none =>
    have h1 : (bernLoop o 1 n).1.countP isBernCall0 = 0 :=
      bernRound_loop_pos o n 1 (by omega)
    rw [bernLoop]
    simp only [h0]
    simp [List.countP_cons, isBernCall0, h1]

/-- A network-reaching annotator invocation is exactly one round. -/
theorem bernRound_one (o : Nat → Option (List Entity)) (c : String)
    (h20 : ¬ c.length < 20) :
    (fetch_entities_from_bern true o c).1.countP isBernCall0 = 1 := by
  have hf : fetch_entities_from_bern true o c = bernLoop o 0 3 := by
    simp [fetch_entities_from_bern, h20]
  rw [hf]
  exact bernRound_loop_zero o 2

/-- Parsing the one-figure collection: no title, no abstract, one figure
whose entities come from the fetch-time annotator call, whose events are
recorded in the trace. -/
theorem parse_oneFig (c : String) (o : Nat → Option (List Entity)) (hne : ¬ c = "") :
    parseCollection true o (oneFigColl c) =
      ⟨"", "", [⟨c, none, (fetch_entities_from_bern true o c).2⟩],
       (fetch_entities_from_bern true o c).1⟩ := by
  simp [parseCollection, oneFigColl, processDoc, docTitleTx, titlePassages, abstractPassages,
    figurePassages, hasInfonVal, firstNonemptyText, firstInfonVal, figStep, figUrl, absStep,
    allInfons, hne, List.filter_cons, List.any_cons]

/-- Fetching through `envFig`: the fetch succeeds with the single figure,
annotated at fetch time. -/
theorem fetch_envFig (c : String) (o : Nat → Option (List Entity)) (hne : ¬ c = "") :
    fetch_bioc_paper (envFig c o) "PMC1" =
      (Ev.httpFetch "PMC1" :: (fetch_entities_from_bern true o c).1,
       some ⟨"PMC1", "", "", [⟨c, none, (fetch_entities_from_bern true o c).2⟩]⟩) := by
  have hid : fetchNormId "PMC1" = "PMC1" := rfl
  simp only [fetch_bioc_paper, hid, envFig]
  rw [parse_oneFig c o hne]
  simp

/-- C9: with entity extraction enabled, `fetch_bioc_paper` itself
annotates every figure caption while parsing, so a caption strictly
longer than 20 characters is annotated twice in one `process_paper_id`
run (once at fetch time, once in the re-annotation loop), while a
caption of exactly 20 characters triggers a fetch-time annotation call
whose result the pipeline then discards, resetting the entity list to
empty because only captions strictly longer than 20 characters are
re-annotated. -/
theorem c9_fetch_time_annotates_captions (c : String) (o : Nat → Option (List Entity))
    (es : List Entity) :
    (20 < c.length →
      bernRoundCount (process_paper_id (envFig c o) [] "PMC1").evs = 2) ∧
    (c.length = 20 →
      (fetch_bioc_paper (envFig c (fun _ => some es)) "PMC1").2 =
        some ⟨"PMC1", "", "", [⟨c, none, es⟩]⟩ ∧
      (process_paper_id (envFig c (fun _ => some es)) [] "PMC1").res =
        Except.ok ⟨"PMC1", "", "", [⟨c, none, []⟩]⟩ ∧
      bernRoundCount (process_paper_id (envFig c (fun _ => some es)) [] "PMC1").evs = 1) := by
  constructor
  · intro hA
    have hne : ¬ c = "" := by
      intro h0; rw [h0] at hA; exact absurd hA (by decide)
    have h20 : ¬ c.length < 20 := by omega
    have hres : resolveStage (envFig c o) "PMC1" = ([], Except.ok "PMC1") := rfl
    have hann : annotateFigures true o [⟨c, none, (fetch_entities_from_bern true o c).2⟩] =
        ((fetch_entities_from_bern true o c).1,
         [⟨c, none, (fetch_entities_from_bern true o c).2⟩]) := by
      simp [annotateFigures, annotStep, hA]
    have hcore : processCore (envFig c o) "PMC1" =
        ([] ++ (Ev.httpFetch "PMC1" :: (fetch_entities_from_bern true o c).1) ++
           (fetch_entities_from_bern true o c).1,
         Except.ok ⟨"PMC1", "", "",
           [⟨c, none, (fetch_entities_from_bern true o c).2⟩]⟩) := by
      simp only [processCore]
      rw [hres]
      simp only [fetch_envFig c o hne]
      simp only [envFig]
      rw [hann]
    rw [process_paper_id, hcore]
    have hhf : isBernCall0 (Ev.httpFetch "PMC1") = false := rfl
    simp [bernRoundCount, List.countP_append, List.countP_cons, hhf,
      bernRound_one o c h20]
  · intro hB
    have hne : ¬ c = "" := by
      intro h0; rw [h0] at hB; exact absurd hB (by decide)
    have h20 : ¬ c.length < 20 := by omega
    have hnA : ¬ 20 < c.length := by omega
    have hbern : fetch_entities_from_bern true (fun _ => some es) c = ([Ev.bernCall 0], es) := by
      simp [fetch_entities_from_bern, h20, bernLoop]
    have hfetch := fetch_envFig c (fun _ => some es) hne
    rw [hbern] at hfetch
    have hres : resolveStage (envFig c (fun _ => some es)) "PMC1" =
        ([], Except.ok "PMC1") := rfl
    have hann : annotateFigures true (fun _ => some es) [⟨c, none, es⟩] =
        ([], [⟨c, none, []⟩]) := by
      simp [annotateFigures, annotStep, hnA]
    have hcore : processCore (envFig c (fun _ => some es)) "PMC1" =
        ([] ++ (Ev.httpFetch "PMC1" :: [Ev.bernCall 0]) ++ [],
         Except.ok ⟨"PMC1", "", "", [⟨c, none, []⟩]⟩) := by
      simp only [processCore]
      rw [hres]
      simp only [hfetch]
      simp only [envFig]
      rw [hann]
    refine ⟨by rw [hfetch], ?_, ?_⟩
    · rw [process_paper_id, hcore]
    · rw [process_paper_id, hcore]
      simp [bernRoundCount, List.countP_cons, List.countP_nil, isBernCall0]

/-- C3 counterexample: the claim says title and abstract are
first-found-wins across documents — a later document never replaces or
extends a value found earlier.  In the code a second document with a
title passage replaces the title ("A" becomes "B") and its abstract
passage extends the abstract ("X" becomes "X Y"). -/
theorem c3_counterexample_title_replaced_abstract_extended :
    (parseCollection false (fun _ => none) ⟨[], [c3doc1]⟩).title = "A" ∧
    (parseCollection false (fun _ => none) ⟨[], [c3doc1, c3doc2]⟩).title = "B" ∧
    ¬ ("B" : String) = "A" ∧
    (parseCollection false (fun _ => none) ⟨[], [c3doc1]⟩).abstract = "X" ∧
    (parseCollection false (fun _ => none) ⟨[], [c3doc1, c3doc2]⟩).abstract = "X Y" :=
  ⟨rfl, rfl, by decide, rfl, rfl⟩

/-- The abstract loop is a space-join fold over the nonempty abstract
texts. -/
theorem absStep_foldl (ps : List Passage) (a : String) :
    ps.foldl absStep a =
      (ps.filterMap fun p => if p.text = "" then none else some p.text).foldl joinStep a := by
  induction ps generalizing a with
  | nil => rfl
  | cons p ps ih =>
    by_cases hp : p.text = ""
    · simp [absStep, hp, List.filterMap_cons, ih]
    · simp [absStep, hp, List.filterMap_cons, ih]

/-- The figure loop appends the figures (and annotator events) built
from the nonempty figure passages. -/
theorem figStep_foldl (e : Bool) (o : Nat → Option (List Entity)) (ps : List Passage)
    (E : List Ev) (F : List Figure) :
    ps.foldl (figStep e o) (E, F) =
      (E ++ (ps.filterMap fun p =>
         if p.text = "" then none
         else some (fetch_entities_from_bern e o p.text).1).flatMap id,
       F ++ (ps.filterMap fun p =>
         if p.text = "" then none
         else some ⟨p.text, figUrl p, (fetch_entities_from_bern e o p.text).2⟩)) := by
  induction ps generalizing E F with
  | nil => simp
  | cons p ps ih =>
    by_cases hp : p.text = ""
    · simp [figStep, hp, List.filterMap_cons, ih]
    · simp only [List.foldl_cons, figStep, if_neg hp, List.filterMap_cons, hp, ite_false]
      rw [ih]
      simp [List.append_assoc]

/-- One document's processing, assuming it carries no document-level
`article-title` infon. -/
theorem processDoc_char (e : Bool) (o : Nat → Option (List Entity)) (st : ParseSt)
    (d : BioCDocument) (h : firstInfonVal d.infons "article-title" = none) :
    processDoc e o st d =
      ⟨(docTitleTx d).getD st.title,
       (docAbstractTexts d).foldl joinStep st.abstract,
       st.figs ++ docFigures e o d,
       st.evs ++ docFigEvsL e o d⟩ := by
  cases hdt : docTitleTx d with
  | none =>
    simp only [processDoc, hdt, h]
    simp [absStep_foldl, figStep_foldl, docAbstractTexts, docFigures, docFigEvsL]
  | some s =>
    simp only [processDoc, hdt, h]
    simp [absStep_foldl, figStep_foldl, docAbstractTexts, docFigures, docFigEvsL]

/-- Folding first-found updates is "last nonempty wins". -/
theorem lastD_getD_foldl (l : List (Option String)) :
    ∀ t, l.foldl (fun t x => x.getD t) t = lastD (l.filterMap id) t := by
  induction l with
  | nil => intro t; rfl
  | cons x xs ih =>
    intro t
    cases x with
    | none => simp [List.filterMap_cons, ih]
    | some s => simp [List.filterMap_cons, ih, lastD]

/-- The whole document fold: last nonempty title wins, abstracts
space-join across documents, figures and events accumulate. -/
theorem docsFold_char (e : Bool) (o : Nat → Option (List Entity)) :
    ∀ (docs : List BioCDocument),
      (∀ d ∈ docs, firstInfonVal d.infons "article-title" = none) →
      ∀ st : ParseSt,
        docs.foldl (processDoc e o) st =
          ⟨lastD (docs.filterMap docTitleTx) st.title,
           (docs.flatMap docAbstractTexts).foldl joinStep st.abstract,
           st.figs ++ docs.flatMap (docFigures e o),
           st.evs ++ docs.flatMap (docFigEvsL e o)⟩ := by
  intro docs
  induction docs with
  | nil => intro _ st; simp [lastD]
  | cons d docs ih =>
    intro hno st
    have hd := hno d (List.mem_cons_self d docs)
    have hrest : ∀ d2 ∈ docs, firstInfonVal d2.infons "article-title" = none :=
      fun d2 hd2 => hno d2 (List.mem_cons_of_mem d hd2)
    rw [List.foldl_cons, processDoc_char e o st d hd, ih hrest]
    cases hdt : docTitleTx d with
    | none =>
      simp [List.filterMap_cons, hdt, List.flatMap_cons, List.foldl_append, List.append_assoc]
    | some s =>
      simp [List.filterMap_cons, hdt, List.flatMap_cons, List.foldl_append, List.append_assoc,
        lastD]

/-- C3 amended: across multiple documents the merge is — title: the
LAST document containing a nonempty title passage wins (first matching
passage within that document); abstract: the nonempty abstract texts of
ALL documents are space-joined in encounter order (later documents
extend, not replace); figures: accumulate across all documents in
encounter order.  (Stated for collections without `article-title`
infons, so the title fallbacks do not fire.) -/
theorem c3_amended_merge_semantics (e : Bool) (o : Nat → Option (List Entity))
    (c : Collection) (hno : ∀ kv ∈ allInfons c, ¬ kv.1 = "article-title") :
    (parseCollection e o c).title = lastD (c.documents.filterMap docTitleTx) "" ∧
    (parseCollection e o c).abstract =
      (c.documents.flatMap docAbstractTexts).foldl joinStep "" ∧
    (parseCollection e o c).figs = c.documents.flatMap (docFigures e o) := by
  have hdocs : ∀ d ∈ c.documents, firstInfonVal d.infons "article-title" = none := by
    intro d hd
    have hfind : d.infons.find? (fun kv => kv.1 == "article-title") = none := by
      rw [List.find?_eq_none]
      intro kv hkv
      simp only [beq_iff_eq]
      exact hno kv (List.mem_append_right _
        (List.mem_flatMap.mpr ⟨d, hd, List.mem_append_left _ hkv⟩))
    simp [firstInfonVal, hfind]
  have hroot : firstInfonVal (allInfons c) "article-title" = none := by
    have hfind : (allInfons c).find? (fun kv => kv.1 == "article-title") = none := by
      rw [List.find?_eq_none]
      intro kv hkv
      simp only [beq_iff_eq]
      exact hno kv hkv
    simp [firstInfonVal, hfind]
  have hfold := docsFold_char e o c.documents hdocs ⟨"", "", [], []⟩
  simp only [parseCollection, hfold, hroot]
  split <;> simp

/-- C3 amended, witnessed on the two-document collection. -/
theorem c3_amended_witness :
    (∀ kv ∈ allInfons (Collection.mk [] [c3doc1, c3doc2]), ¬ kv.1 = "article-title") ∧
    ((parseCollection false (fun _ => none) (Collection.mk [] [c3doc1, c3doc2])).title =
       lastD ((Collection.mk [] [c3doc1, c3doc2]).documents.filterMap docTitleTx) "" ∧
     (parseCollection false (fun _ => none) (Collection.mk [] [c3doc1, c3doc2])).abstract =
       ((Collection.mk [] [c3doc1, c3doc2]).documents.flatMap docAbstractTexts).foldl
         joinStep "" ∧
     (parseCollection false (fun _ => none) (Collection.mk [] [c3doc1, c3doc2])).figs =
       (Collection.mk [] [c3doc1, c3doc2]).documents.flatMap
         (docFigures false (fun _ => none))) :=
  ⟨by decide,
   c3_amended_merge_semantics false (fun _ => none) (Collection.mk [] [c3doc1, c3doc2])
     (by decide)⟩

/-- Looking a key up in a cons cell. -/
theorem lookupKV_cons (x : String × String) (xs : List (String × String)) (k : String) :
    lookupKV (x :: xs) k = if x.1 = k then some x.2 else lookupKV xs k := by
  by_cases h : x.1 = k
  · simp [lookupKV, List.find?_cons_of_pos, h]
  · simp [lookupKV, List.find?_cons_of_neg, h]

/-- After an upsert the upserted key maps to the upserted value. -/
theorem lookupKV_upsert_self (t : List (String × String)) (e : String × String) :
    lookupKV (upsertKV t e) e.1 = some e.2 := by
  induction t with
  | nil => rw [upsertKV, lookupKV_cons]; simp
  | cons x xs ih =>
    by_cases h : x.1 = e.1
    · rw [upsertKV, if_pos h, lookupKV_cons]; simp
    · rw [upsertKV, if_neg h, lookupKV_cons, if_neg h]; exact ih

/-- An upsert does not disturb other keys. -/
theorem lookupKV_upsert_other (t : List (String × String)) (e : String × String)
    (k : String) (h : ¬ k = e.1) :
    lookupKV (upsertKV t e) k = lookupKV t k := by
  induction t with
  | nil => rw [upsertKV, lookupKV_cons, if_neg (fun hc => h hc.symm)]
  | cons x xs ih =>
    by_cases hx : x.1 = e.1
    · rw [upsertKV, if_pos hx, lookupKV_cons, lookupKV_cons,
        if_neg (fun hc => h hc.symm), if_neg (fun hc => h (hx ▸ hc).symm)]
    · rw [upsertKV, if_neg hx, lookupKV_cons, lookupKV_cons]
      by_cases hxk : x.1 = k
      · rw [if_pos hxk, if_pos hxk]
      · rw [if_neg hxk, if_neg hxk]; exact ih

/-- An import step whose line does not parse to the given key preserves
that key's mapping. -/
theorem importStep_preserves (key val : String) (l : String)
    (h : ∀ q, ¬ parseMappingLine (stripPy l) = LineParse.mapEntry key q)
    (t : List (String × String)) (hl : lookupKV t key = some val) :
    lookupKV (importStep t l) key = some val := by
  rw [importStep]
  cases hp : parseMappingLine (stripPy l) with
  | mapEntry p q =>
    have hkp : ¬ key = p := fun hk => h q (by rw [hp, hk])
    rw [lookupKV_upsert_other t (p, q) key hkp]
    exact hl
  | skipLine => exact hl
  | errLine => exact hl

/-- Folding import steps over lines that never re-map the key preserves
its mapping. -/
theorem foldl_importStep_preserves (key val : String) :
    ∀ (post : List String) (t : List (String × String)),
      (∀ l ∈ post, ∀ q, ¬ parseMappingLine (stripPy l) = LineParse.mapEntry key q) →
      lookupKV t key = some val →
      lookupKV (post.foldl importStep t) key = some val := by
  intro post
  induction post with
  | nil => intro t _ h; exact h
  | cons l ls ih =>
    intro t hno h
    rw [List.foldl_cons]
    refine ih _ (fun l2 hl2 q => hno l2 (List.mem_cons_of_mem _ hl2) q) ?_
    exact importStep_preserves key val l (fun q => hno l (List.mem_cons_self _ _) q) t h

/-- C4 counterexample: the claim says the OA-list line produces the
mapping 999 → PMC123 regardless of its position in the file, but when it
is the very first line the importer consumes it as a presumed timestamp
(it does not start with `oa_package`) and stores nothing, even though
the line itself parses cleanly. -/
theorem c4_counterexample_first_line_swallowed :
    parseMappingLine (stripPy oaLine) = LineParse.mapEntry "999" "PMC123" ∧
    build_pmid_to_pmcid_mapping [oaLine] = [] ∧
    lookupKV (build_pmid_to_pmcid_mapping [oaLine]) "999" = none :=
  ⟨rfl, rfl, rfl⟩

/-- C4 amended: the OA-list line `file.pdf<TAB>Some Title<TAB>PMC123<TAB>
PMID:999<TAB>CC-BY` produces the stored mapping 999 → PMC123 provided it
is not the first line of the file (the first line is skipped as a
presumed timestamp unless it starts with `oa_package`) and no later line
parses to a mapping for PMID 999. -/
theorem c4_amended_mapping_line (pre post : List String) (hpre : ¬ pre = [])
    (hpost : ∀ l ∈ post, ∀ q, ¬ parseMappingLine (stripPy l) = LineParse.mapEntry "999" q) :
    lookupKV (build_pmid_to_pmcid_mapping (pre ++ oaLine :: post)) "999" = some "PMC123" := by
  have hoa : parseMappingLine (stripPy oaLine) = LineParse.mapEntry "999" "PMC123" := rfl
  have hstep : ∀ t, lookupKV (importStep t oaLine) "999" = some "PMC123" := by
    intro t
    rw [importStep, hoa]
    exact lookupKV_upsert_self t ("999", "PMC123")
  cases pre with
  | nil => exact absurd rfl hpre
  | cons p0 pre2 =>
    rw [build_pmid_to_pmcid_mapping]
    simp only [List.cons_append]
    rw [effectiveLines]
    split
    · rw [List.foldl_cons, List.foldl_append, List.foldl_cons]
      exact foldl_importStep_preserves "999" "PMC123" post _ hpost (hstep _)
    · rw [List.foldl_append, List.foldl_cons]
      exact foldl_importStep_preserves "999" "PMC123" post _ hpost (hstep _)

/-- C4 amended, witnessed on a two-line file whose first line is a
timestamp. -/
theorem c4_amended_witness :
    ¬ (["2023-12-18 09:01:59"] : List String) = [] ∧
    lookupKV (build_pmid_to_pmcid_mapping (["2023-12-18 09:01:59"] ++ oaLine :: []))
      "999" = some "PMC123" :=
  ⟨by decide,
   c4_amended_mapping_line ["2023-12-18 09:01:59"] [] (by decide)
     (fun l hl _ => absurd hl (List.not_mem_nil l))⟩

/-- C9 witnessed at a 21-character and a 20-character caption. -/
theorem c9_witness :
    bernRoundCount (process_paper_id
      (envFig "aaaaaaaaaaaaaaaaaaaaa" (fun _ => some [])) [] "PMC1").evs = 2 ∧
    ((fetch_bioc_paper (envFig "aaaaaaaaaaaaaaaaaaaa"
        (fun _ => some [Entity.mk "x" "gene" none 0 1])) "PMC1").2 =
       some ⟨"PMC1", "", "",
         [⟨"aaaaaaaaaaaaaaaaaaaa", none, [Entity.mk "x" "gene" none 0 1]⟩]⟩ ∧
     (process_paper_id (envFig "aaaaaaaaaaaaaaaaaaaa"
        (fun _ => some [Entity.mk "x" "gene" none 0 1])) [] "PMC1").res =
       Except.ok ⟨"PMC1", "", "", [⟨"aaaaaaaaaaaaaaaaaaaa", none, []⟩]⟩ ∧
     bernRoundCount (process_paper_id (envFig "aaaaaaaaaaaaaaaaaaaa"
        (fun _ => some [Entity.mk "x" "gene" none 0 1])) [] "PMC1").evs = 1) :=
  ⟨(c9_fetch_time_annotates_captions "aaaaaaaaaaaaaaaaaaaaa" (fun _ => some []) []).1 (by decide),
   (c9_fetch_time_annotates_captions "aaaaaaaaaaaaaaaaaaaa"
      (fun _ => some [Entity.mk "x" "gene" none 0 1])
      [Entity.mk "x" "gene" none 0 1]).2 (by decide)⟩

/-- Chunks concatenate back to the original list (the fuel always
suffices because each step consumes at least one element). -/
theorem chunksAux_flatten (n : Nat) :
    ∀ (fuel : Nat) (l : List α), l.length ≤ fuel → (chunksAux n fuel l).flatten = l := by
  intro fuel
  induction fuel with
  | zero =>
    intro l hl
    have : l = [] := List.length_eq_zero.mp (Nat.le_zero.mp hl)
    subst this
    simp [chunksAux]
  | succ m ih =>
    intro l hl
    cases l with
    | nil => simp [chunksAux]
    | cons x xs =>
      have hb : ((x :: xs).drop (n + 1)).length ≤ m := by
        simp only [List.length_cons] at hl
        simp only [List.length_drop, List.length_cons]
        omega
      rw [chunksAux]
      simp only [List.flatten_cons]
      rw [ih ((x :: xs).drop (n + 1)) hb]
      exact List.take_append_drop (n + 1) (x :: xs)

/-- `chunks` is a partition of the list. -/
theorem chunks_flatten (n : Nat) (l : List α) : (chunks n l).flatten = l :=
  chunksAux_flatten n l.length l (Nat.le_refl _)

/-- Folding chunk-by-chunk is folding the flattened list. -/
theorem foldl_chunks {β : Type} (g : β → α → β) :
    ∀ (ll : List (List α)) (init : β),
      ll.foldl (fun st ch => ch.foldl g st) init = ll.flatten.foldl g init := by
  intro ll
  induction ll with
  | nil => intro init; rfl
  | cons ch ll ih => intro init; simp [List.flatten_cons, List.foldl_append, ih]

/-- Every processed entry is counted exactly once, as a success or as a
failure. -/
theorem runEntries_counts (env : Env) :
    ∀ (entries : List (String × String)) (t : Table) (s f : Nat),
      (entries.foldl (runEntry env) (t, s, f)).2.1 +
        (entries.foldl (runEntry env) (t, s, f)).2.2 = s + f + entries.length := by
  intro entries
  induction entries with
  | nil => intro t s f; simp
  | cons e es ih =>
    intro t s f
    rw [List.foldl_cons, runEntry]
    cases h : (process_paper_id env t e.2).res with
    | ok p => simp only [h]; rw [ih]; simp only [List.length_cons]; omega
    | error e2 => simp only [h]; rw [ih]; simp only [List.length_cons]; omega

/-- Availability partitioning accounts for every identifier. -/
theorem check_available_length (env : Env) :
    ∀ ids : List String,
      (check_available_papers env ids).1.length +
        (check_available_papers env ids).2.length = ids.length := by
  intro ids
  induction ids with
  | nil => rfl
  | cons pid rest ih =>
    rw [check_available_papers]
    cases h : checkOne env pid with
    | some pm => simp only [h, List.length_cons]; omega
    | none => simp only [h, List.length_cons]; omega

/-- C7: for every batch file whose contents can be read, `process_file`
writes a summary carrying the five counts (total, available, success,
failed, skipped — with every available entry counted as exactly one
success or one failure, however many pipeline invocations failed) and
renames the source file with the completed suffix; only an error outside
the per-identifier loop (an unreadable file) takes the failed-suffix
path. -/
theorem c7_process_file_summary_and_rename (env : Env) (bs : Nat) (t : Table)
    (lines : List String) :
    (∃ s, process_file env bs t (Except.ok lines) = FileOutcome.completed s ∧
       s.total = (cleanIds lines).length ∧
       s.available + s.skipped = s.total ∧
       s.success + s.failed = s.available) ∧
    process_file env bs t (Except.error ()) = FileOutcome.failed := by
  refine ⟨⟨⟨(cleanIds lines).length,
      (check_available_papers env (cleanIds lines)).1.length,
      ((chunks bs (check_available_papers env (cleanIds lines)).1).foldl
        (fun (st : Table × Nat × Nat) (ch : List (String × String)) => ch.foldl (runEntry env) st) (t, 0, 0)).2.1,
      ((chunks bs (check_available_papers env (cleanIds lines)).1).foldl
        (fun (st : Table × Nat × Nat) (ch : List (String × String)) => ch.foldl (runEntry env) st) (t, 0, 0)).2.2,
      (check_available_papers env (cleanIds lines)).2.length⟩, rfl, rfl, ?_, ?_⟩, rfl⟩
  · exact check_available_length env (cleanIds lines)
  · show ((chunks bs (check_available_papers env (cleanIds lines)).1).foldl
        (fun (st : Table × Nat × Nat) (ch : List (String × String)) => ch.foldl (runEntry env) st) (t, 0, 0)).2.1 +
      ((chunks bs (check_available_papers env (cleanIds lines)).1).foldl
        (fun (st : Table × Nat × Nat) (ch : List (String × String)) => ch.foldl (runEntry env) st) (t, 0, 0)).2.2 =
      (check_available_papers env (cleanIds lines)).1.length
    rw [foldl_chunks, chunks_flatten]
    have h := runEntries_counts env (check_available_papers env (cleanIds lines)).1 t 0 0
    simpa using h
